import Mathlib

/-!
Verification of the AOTM-Edge-Panel telemetry-aggregation and face-rendering
core (crate ht32-panel-daemon).  The definitions below are shallow embeddings
of the Rust source: machine floats (f64) are modelled as exact rationals,
machine integers as Nat/Int with explicit wrap (% 2^w) where the source casts,
and Rust string lowercasing as an ASCII character map.
-/

/-- Embedding of ASCII lowercasing of one character (the character classes the
source tables use are all ASCII). -/
def char_to_lower (c : Char) : Char :=
  if 'A' ≤ c ∧ c ≤ 'Z' then Char.ofNat (c.toNat + 32) else c

/-- Embedding of the lowercasing call used by the source before every
name-table match. -/
def str_to_lower (s : String) : String :=
  ⟨s.data.map char_to_lower⟩

/-- Embedding of the Rust format specifier for zero-padding a number to
width 2. -/
def fmt_pad2_zero (n : Nat) : String :=
  if (toString n).length < 2 then "0" ++ toString n else toString n

/-- Embedding of the Rust format specifier for space-padding a number to
width 2. -/
def fmt_pad2_space (n : Nat) : String :=
  if (toString n).length < 2 then " " ++ toString n else toString n

/-! ## crates/ht32-panel-daemon/src/sensors/data.rs -/

/-- Number of history samples to keep for graphs (data.rs line 6). -/
def HISTORY_SIZE : Nat := 60

/-- IP address display preference (data.rs lines 9-20). -/
inductive IpDisplayPreference where
  | Ipv6Gua
  | Ipv6Lla
  | Ipv6Ula
  | Ipv4
deriving DecidableEq

/-- The Display rendering of a preference (data.rs lines 44-53). -/
def IpDisplayPreference.render : IpDisplayPreference → String
  | .Ipv6Gua => "ipv6-gua"
  | .Ipv6Lla => "ipv6-lla"
  | .Ipv6Ula => "ipv6-ula"
  | .Ipv4 => "ipv4"

/-- FromStr for IpDisplayPreference (data.rs lines 55-67): lowercase the
input, match it against the alias table, otherwise return the error string
built from the original input. -/
def IpDisplayPreference.from_str (s : String) : Except String IpDisplayPreference :=
  let l := str_to_lower s
  if l = "ipv6-gua" ∨ l = "ipv6_gua" ∨ l = "ipv6gua" ∨ l = "gua" then
    .ok .Ipv6Gua
  else if l = "ipv6-lla" ∨ l = "ipv6_lla" ∨ l = "ipv6lla" ∨ l = "lla" then
    .ok .Ipv6Lla
  else if l = "ipv6-ula" ∨ l = "ipv6_ula" ∨ l = "ipv6ula" ∨ l = "ula" then
    .ok .Ipv6Ula
  else if l = "ipv4" ∨ l = "v4" then
    .ok .Ipv4
  else
    .error ("Unknown IP display preference: " ++ s)

/-- The accepted lowercase aliases of each preference, read off the match arms
of data.rs lines 60-63. -/
def IpDisplayPreference.aliases : IpDisplayPreference → List String
  | .Ipv6Gua => ["ipv6-gua", "ipv6_gua", "ipv6gua", "gua"]
  | .Ipv6Lla => ["ipv6-lla", "ipv6_lla", "ipv6lla", "lla"]
  | .Ipv6Ula => ["ipv6-ula", "ipv6_ula", "ipv6ula", "ula"]
  | .Ipv4 => ["ipv4", "v4"]

/-- The fields of SystemData the embedded operations touch (data.rs lines
70-112): the clock fields and the two bounded rate histories.  Rates are f64
in the source, modelled as exact rationals. -/
structure SystemData where
  hour : Nat
  minute : Nat
  disk_history : List ℚ
  net_history : List ℚ

/-- SystemData::format_time (data.rs lines 116-137).  The 12-hour branch uses
the Rust specifier that space-pads the hour to width 2; the minute is
zero-padded; every selector other than digital-12h and analogue falls through
to the 24-hour form. -/
def SystemData.format_time (d : SystemData) (format : String) : String :=
  if format = "digital-12h" then
    let p := if d.hour = 0 then (12, "AM")
      else if d.hour < 12 then (d.hour, "AM")
      else if d.hour = 12 then (12, "PM")
      else (d.hour - 12, "PM")
    fmt_pad2_space p.1 ++ ":" ++ fmt_pad2_zero d.minute ++ " " ++ p.2
  else if format = "analogue" then
    ""
  else
    fmt_pad2_zero d.hour ++ ":" ++ fmt_pad2_zero d.minute

/-- Round-half-to-even of an exact rational, the rounding Rust float
formatting applies when a precision is given. -/
def round_half_even (q : ℚ) : ℤ :=
  if q - ⌊q⌋ < 1/2 then ⌊q⌋
  else if 1/2 < q - ⌊q⌋ then ⌊q⌋ + 1
  else if ⌊q⌋ % 2 = 0 then ⌊q⌋ else ⌊q⌋ + 1

/-- Embedding of the Rust float format specifier printing one decimal place
(non-negative arguments; the rates formatted in the source are
non-negative). -/
def fmt_dec1 (q : ℚ) : String :=
  let n := round_half_even (q * 10)
  toString (n / 10) ++ "." ++ toString ((n % 10).natAbs)

/-- Embedding of the Rust float format specifier printing no decimal
places. -/
def fmt_dec0 (q : ℚ) : String :=
  toString (round_half_even q)

/-- SystemData::format_rate (data.rs lines 191-201). -/
def format_rate (bytes_per_sec : ℚ) : String :=
  if 1000000000 ≤ bytes_per_sec then
    fmt_dec1 (bytes_per_sec / 1000000000) ++ " GB/s"
  else if 1000000 ≤ bytes_per_sec then
    fmt_dec1 (bytes_per_sec / 1000000) ++ " MB/s"
  else if 1000 ≤ bytes_per_sec then
    fmt_dec1 (bytes_per_sec / 1000) ++ " KB/s"
  else
    fmt_dec0 bytes_per_sec ++ " B/s"

/-- SystemData::format_rate_compact (data.rs lines 204-214). -/
def format_rate_compact (bytes_per_sec : ℚ) : String :=
  if 1000000000 ≤ bytes_per_sec then
    fmt_dec1 (bytes_per_sec / 1000000000) ++ "G"
  else if 1000000 ≤ bytes_per_sec then
    fmt_dec1 (bytes_per_sec / 1000000) ++ "M"
  else if 1000 ≤ bytes_per_sec then
    fmt_dec1 (bytes_per_sec / 1000) ++ "K"
  else
    fmt_dec0 bytes_per_sec ++ "B"

/-- The shared numeric part and unit letter both rate formatters compute,
used to state how the compact form relates to the verbose form. -/
def rate_pieces (bytes_per_sec : ℚ) : String × String :=
  if 1000000000 ≤ bytes_per_sec then (fmt_dec1 (bytes_per_sec / 1000000000), "G")
  else if 1000000 ≤ bytes_per_sec then (fmt_dec1 (bytes_per_sec / 1000000), "M")
  else if 1000 ≤ bytes_per_sec then (fmt_dec1 (bytes_per_sec / 1000), "K")
  else (fmt_dec0 bytes_per_sec, "")

/-- The 1 MB/s minimum graph scale (data.rs line 222). -/
def MIN_SCALE : ℚ := 1000000

/-- The maximum-sample fold of SystemData::compute_graph_scale
(data.rs line 224): fold of f64 max over the history, seeded with 0. -/
def max_sample (history : List ℚ) : ℚ :=
  history.foldl (fun a b => max a b) 0

/-- The scaling applied by SystemData::compute_graph_scale to the maximum
sample (data.rs lines 226-244).  The source computes the magnitude as
10^floor(log10 max); on exact rationals that floor of the base-10 logarithm
is Int.log 10. -/
def scale_of_max (max_val : ℚ) : ℚ :=
  if max_val ≤ MIN_SCALE then MIN_SCALE
  else
    let magnitude : ℚ := (10 : ℚ) ^ Int.log 10 max_val
    let normalized := max_val / magnitude
    let multiplier : ℚ :=
      if normalized ≤ 1 then 1
      else if normalized ≤ 2 then 2
      else if normalized ≤ 5 then 5
      else 10
    max (magnitude * multiplier) MIN_SCALE

/-- SystemData::compute_graph_scale (data.rs lines 221-245), split as the
maximum-sample fold followed by the snap-to-nice-number scaling. -/
def compute_graph_scale (history : List ℚ) : ℚ :=
  scale_of_max (max_sample history)

/-! ## crates/ht32-panel-daemon/src/sensors/system.rs -/

/-- SystemInfo::days_to_ymd (system.rs lines 64-77).  Rust integer division
on i64 truncates toward zero, embedded as Int.tdiv; the closing casts to
u16 (year) and u8 (month, day) are embedded as the corresponding wraps. -/
def days_to_ymd (days : Int) : Nat × Nat × Nat :=
  let z := days + 719468
  let era := (if 0 ≤ z then z else z - 146096).tdiv 146097
  let doe := (z - era * 146097).toNat
  let yoe := (doe - doe / 1460 + doe / 36524 - doe / 146096) / 365
  let y : Int := (yoe : Int) + era * 400
  let doy := doe - (365 * yoe + yoe / 4 - yoe / 100)
  let mp := (5 * doy + 2) / 153
  let d := doy - (153 * mp + 2) / 5 + 1
  let m := if mp < 10 then mp + 3 else mp - 9
  let y2 := if m ≤ 2 then y + 1 else y
  ((y2 % 65536).toNat, m % 256, d % 256)

/-- Modelled from the spec: the civil-from-days conversion exactly as §4.1
words it (shift by +719468, 146097-day eras with the negative correction,
the leap-aware year-of-era polynomial, the March-based month offset, and the
January/February year bump), with no representation casts.  Used as the
reference the source function is compared against. -/
def civil_from_days (days : Int) : Int × Nat × Nat :=
  let z := days + 719468
  let era := (if 0 ≤ z then z else z - 146096).tdiv 146097
  let doe := (z - era * 146097).toNat
  let yoe := (doe - doe / 1460 + doe / 36524 - doe / 146096) / 365
  let y : Int := (yoe : Int) + era * 400
  let doy := doe - (365 * yoe + yoe / 4 - yoe / 100)
  let mp := (5 * doy + 2) / 153
  let d := doy - (153 * mp + 2) / 5 + 1
  let m := if mp < 10 then mp + 3 else mp - 9
  let y2 := if m ≤ 2 then y + 1 else y
  (y2, m, d)

/-- The day-of-week computation of SystemInfo::time_components (system.rs
line 55): (days_since_epoch + 4) % 7 cast to u8, with 0 meaning Sunday.
Rust % on i64 is the truncated remainder, embedded as Int.tmod. -/
def day_of_week (days : Int) : Nat :=
  (((days + 4).tmod 7) % 256).toNat

/-! ## crates/ht32-panel-daemon/src/faces/mod.rs -/

/-- Color theme for face rendering (mod.rs lines 17-25), three RGB888
values. -/
structure Theme where
  primary : Nat
  secondary : Nat
  background : Nat
deriving DecidableEq

/-- The name table of Theme::from_preset (mod.rs lines 36-73), matched
against the already-lowercased name; the final arm is the default
palette. -/
def preset_table (n : String) : Theme :=
  if n = "hacker" then
    ⟨0x00FF00, 0x00AA00, 0x000000⟩
  else if n = "solarized-light" ∨ n = "solarized_light" then
    ⟨0x268BD2, 0x859900, 0xFDF6E3⟩
  else if n = "solarized-dark" ∨ n = "solarized_dark" then
    ⟨0x268BD2, 0x859900, 0x002B36⟩
  else if n = "nord" then
    ⟨0x88C0D0, 0x81A1C1, 0x2E3440⟩
  else if n = "tokyonight" ∨ n = "tokyo-night" ∨ n = "tokyo_night" then
    ⟨0x7AA2F7, 0xBB9AF7, 0x1A1B26⟩
  else
    ⟨0x00DDDD, 0xFF6B6B, 0x1A1A2E⟩

/-- Theme::from_preset (mod.rs lines 35-75): lowercase the name, then look it
up in the fixed table. -/
def Theme.from_preset (name : String) : Theme :=
  preset_table (str_to_lower name)

/-- The lowercase spellings Theme::from_preset recognizes explicitly (all the
non-default match arms of mod.rs lines 37-66). -/
def recognized_preset_names : List String :=
  ["hacker", "solarized-light", "solarized_light", "solarized-dark",
   "solarized_dark", "nord", "tokyonight", "tokyo-night", "tokyo_night"]

/-! ## crates/ht32-panel-daemon/src/faces/image.rs -/

/-- The alpha-premultiplication of one RGBA pixel inside ImageFace::load_image
(image.rs lines 37-44): channels are u8, the multiply is done in u32 and cast
back to u8 (embedded as % 256), and the multiplication is skipped when alpha
is 255. -/
def premultiply_pixel (p : Nat × Nat × Nat × Nat) : Nat × Nat × Nat × Nat :=
  let a := p.2.2.2
  if a ≠ 255 then
    ((p.1 * a / 255) % 256, (p.2.1 * a / 255) % 256, (p.2.2.1 * a / 255) % 256, a)
  else
    p

/-- The premultiplication pass of ImageFace::load_image over the decoded
bitmap, pixel by pixel. -/
def premultiply (pixels : List (Nat × Nat × Nat × Nat)) : List (Nat × Nat × Nat × Nat) :=
  pixels.map premultiply_pixel

/-- What one ImageFace::render call draws after clearing the canvas
(image.rs lines 99-134): the two-line placeholder for an empty path, the
centered cached bitmap, or the failure message together with the attempted
path. -/
inductive ImageRenderOutput where
  | placeholder
  | bitmap (path : String) (pix : Nat)
  | failureText (path : String)
deriving DecidableEq

/-- The ImageFace cache slot (image.rs line 13): at most one decoded bitmap
keyed by the path it was loaded from.  Decoded bitmaps are abstracted to
numeric identifiers. -/
abbrev ImageCache := Option (String × Nat)

/-- Result of one ImageFace::render call: the cache slot it leaves behind,
how many load_image attempts it made, and what it drew. -/
structure ImageRenderResult where
  cache : ImageCache
  loads : Nat
  output : ImageRenderOutput
deriving DecidableEq

/-- ImageFace::render (image.rs lines 80-135) as a transition on the cache
slot.  decode abstracts load_image: what a decode attempt at a path returns.
An empty configured path short-circuits to the placeholder; otherwise the
cache is reloaded exactly when its entry's path differs from the configured
path or no entry exists, a failed decode clears the slot, and the draw uses
the slot's entry or, failing that, the error text naming the path. -/
def image_render (decode : String → Option Nat) (path : String)
    (cache : ImageCache) : ImageRenderResult :=
  if path = "" then
    ⟨cache, 0, .placeholder⟩
  else
    let should_reload : Bool :=
      match cache with
      | some (cached_path, _) => cached_path ≠ path
      | none => true
    let step : ImageCache × Nat :=
      if should_reload then
        match decode path with
        | some pix => (some (path, pix), 1)
        | none => (none, 1)
      else (cache, 0)
    match step.1 with
    | some (p, pix) => ⟨some (p, pix), step.2, .bitmap p pix⟩
    | none => ⟨none, step.2, .failureText path⟩

/-! ## History windows (Telemetry Aggregator) -/

/-- Modelled from the spec: the aggregator that appends each tick's combined
rate to the history windows is not among the provided sources; §4.1 specifies
that it appends the latest value at the tail and evicts the oldest entry at
the head when the capacity HISTORY_SIZE is exceeded. -/
def history_append (h : List ℚ) (v : ℚ) : List ℚ :=
  let grown := h ++ [v]
  if HISTORY_SIZE < grown.length then grown.drop (grown.length - HISTORY_SIZE)
  else grown

/-- A run of consecutive history appends, oldest new value first. -/
def history_append_all (h : List ℚ) (vs : List ℚ) : List ℚ :=
  vs.foldl history_append h

/-- Modelled from the spec: one tick's history update of a SystemData record,
appending the combined disk rate and the combined network rate to their
respective windows. -/
def update_histories (d : SystemData) (disk_rate net_rate : ℚ) : SystemData :=
  { d with
    disk_history := history_append d.disk_history disk_rate
    net_history := history_append d.net_history net_rate }

/-! ## Helper lemmas -/

lemma fmt_pad2_zero_digits : ∀ n < 100, fmt_pad2_zero n = toString (n / 10) ++ toString (n % 10) := by decide

lemma fmt_pad2_space_digits : ∀ n < 100, fmt_pad2_space n = (if n < 10 then " " else "") ++ toString n := by decide

/-! ## Claim C9 -/

/-- Claim C9: after the premultiplication pass of ImageFace::load_image, every
pixel of the bitmap has each color channel equal to channel * alpha / 255 in
exact integer arithmetic with the alpha unchanged, for all alpha values
including 255 where the code skips the multiplication. -/
theorem premultiply_channel_formula (pixels : List (Nat × Nat × Nat × Nat))
    (hb : ∀ p ∈ pixels, p.1 < 256 ∧ p.2.1 < 256 ∧ p.2.2.1 < 256 ∧ p.2.2.2 < 256) :
    premultiply pixels = pixels.map (fun p =>
      (p.1 * p.2.2.2 / 255, p.2.1 * p.2.2.2 / 255, p.2.2.1 * p.2.2.2 / 255, p.2.2.2)) := by
  unfold premultiply
  apply List.map_congr_left
  intro p hp
  obtain ⟨r, g, b, a⟩ := p
  obtain ⟨hr, hg, hbl, ha⟩ := hb _ hp
  simp only at hr hg hbl ha
  by_cases h255 : a = 255
  · subst h255
    simp only [premultiply_pixel, ne_eq, not_true_eq_false, if_false]
    have cancel : ∀ c : Nat, c * 255 / 255 = c := fun c => Nat.mul_div_cancel c (by norm_num)
    simp [cancel]
  · have bound : ∀ c : Nat, c < 256 → c * a / 255 % 256 = c * a / 255 := by
      intro c hc
      apply Nat.mod_eq_of_lt
      have h1 : c * a ≤ c * 255 := Nat.mul_le_mul_left c (by omega)
      have h2 : c * a / 255 ≤ c * 255 / 255 := Nat.div_le_div_right h1
      rw [Nat.mul_div_cancel c (by norm_num)] at h2
      omega
    simp only [premultiply_pixel, ne_eq, h255, not_false_eq_true, if_true]
    simp [bound r hr, bound g hg, bound b hbl]

/-- Witness for C9 at a concrete bitmap. -/
theorem premultiply_channel_formula_witness :
    premultiply [(10, 20, 30, 255), (101, 202, 33, 128)] =
      [(10, 20, 30, 255), (101, 202, 33, 128)].map (fun p =>
        (p.1 * p.2.2.2 / 255, p.2.1 * p.2.2.2 / 255, p.2.2.1 * p.2.2.2 / 255, p.2.2.2)) :=
  premultiply_channel_formula _ (by decide)

/-! ## Claim C10 -/

lemma from_str_eq_alias_table (s : String) :
    IpDisplayPreference.from_str s =
      (if str_to_lower s ∈ IpDisplayPreference.aliases .Ipv6Gua then .ok .Ipv6Gua
       else if str_to_lower s ∈ IpDisplayPreference.aliases .Ipv6Lla then .ok .Ipv6Lla
       else if str_to_lower s ∈ IpDisplayPreference.aliases .Ipv6Ula then .ok .Ipv6Ula
       else if str_to_lower s ∈ IpDisplayPreference.aliases .Ipv4 then .ok .Ipv4
       else .error ("Unknown IP display preference: " ++ s)) := by
  simp only [IpDisplayPreference.from_str, IpDisplayPreference.aliases, List.mem_cons,
    List.mem_singleton, List.not_mem_nil, or_false]

/-- Claim C10: every IpDisplayPreference round-trips through its Display
rendering, acceptance is decided by the lowercased input against the fixed
alias table (so parsing is case-insensitive and takes the
hyphen/underscore/short aliases), and every string outside the alias set
parses to the error result naming the input. -/
theorem ip_preference_parse_round_trip :
    (∀ p : IpDisplayPreference, IpDisplayPreference.from_str p.render = .ok p)
  ∧ (∀ (s : String) (p : IpDisplayPreference),
      IpDisplayPreference.from_str s = .ok p ↔ str_to_lower s ∈ p.aliases)
  ∧ (∀ s : String, (∀ p : IpDisplayPreference, str_to_lower s ∉ p.aliases) →
      IpDisplayPreference.from_str s = .error ("Unknown IP display preference: " ++ s)) := by
  refine ⟨?_, ?_, ?_⟩
  · intro p
    cases p <;> rfl
  · intro s p
    rw [from_str_eq_alias_table]
    generalize str_to_lower s = l
    split_ifs with h1 h2 h3 h4 <;> cases p <;>
      simp only [Except.ok.injEq, reduceCtorEq, false_iff, true_iff, iff_false, iff_true] <;>
      first
        | exact h1
        | exact h2
        | exact h3
        | exact h4
        | (simp only [IpDisplayPreference.aliases, List.mem_cons, List.not_mem_nil,
            or_false] at h1 ⊢
           rcases h1 with rfl | rfl | rfl | rfl <;> decide)
        | (simp only [IpDisplayPreference.aliases, List.mem_cons, List.not_mem_nil,
            or_false] at h2 ⊢
           rcases h2 with rfl | rfl | rfl | rfl <;> decide)
        | (simp only [IpDisplayPreference.aliases, List.mem_cons, List.not_mem_nil,
            or_false] at h3 ⊢
           rcases h3 with rfl | rfl | rfl | rfl <;> decide)
  · intro s h
    rw [from_str_eq_alias_table]
    rw [if_neg (h _), if_neg (h _), if_neg (h _), if_neg (h _)]

/-- Witness for C10: the error arm at a concrete unrecognized string. -/
theorem ip_preference_parse_round_trip_witness :
    IpDisplayPreference.from_str "bogus" = .error ("Unknown IP display preference: " ++ "bogus") :=
  ip_preference_parse_round_trip.2.2 _ (by intro p; cases p <;> decide)

/-! ## Claim C5 -/

/-- Claim C5: theme resolution is a total function over the fixed
case-insensitive name table; every name whose lowercasing is outside the
table resolves to the same palette as the explicit default name, two names
with equal lowercasings resolve identically, and the
hyphen/underscore-aliased spellings resolve to the same palette in any
letter case. -/
theorem theme_from_preset_default_fallback :
    (∀ s : String, str_to_lower s ∉ recognized_preset_names →
      Theme.from_preset s = Theme.from_preset ("default"))
  ∧ (∀ s t : String, str_to_lower s = str_to_lower t →
      Theme.from_preset s = Theme.from_preset t)
  ∧ Theme.from_preset ("solarized-light") = Theme.from_preset ("solarized_light")
  ∧ Theme.from_preset ("SOLARIZED-LIGHT") = Theme.from_preset ("solarized-light")
  ∧ Theme.from_preset ("Tokyo-Night") = Theme.from_preset ("tokyonight")
  ∧ Theme.from_preset ("TOKYO_NIGHT") = Theme.from_preset ("tokyonight") := by
  refine ⟨?_, ?_, by decide, by decide, by decide, by decide⟩
  · intro s h
    show preset_table (str_to_lower s) = preset_table (str_to_lower "default")
    generalize str_to_lower s = l at h
    simp only [recognized_preset_names, List.mem_cons, List.not_mem_nil, or_false,
      not_or] at h
    obtain ⟨n1, n2, n3, n4, n5, n6, n7, n8, n9⟩ := h
    rw [preset_table, if_neg n1, if_neg (by simp [n2, n3]), if_neg (by simp [n4, n5]),
      if_neg n6, if_neg (by simp [n7, n8, n9])]
    decide
  · intro s t h
    show preset_table (str_to_lower s) = preset_table (str_to_lower t)
    rw [h]

/-- Witness for C5: the fallback arm at a concrete unrecognized name. -/
theorem theme_from_preset_default_fallback_witness :
    Theme.from_preset ("dracula") = Theme.from_preset ("default") :=
  theme_from_preset_default_fallback.1 _ (by decide)

/-! ## Claim C6 -/

/-- Counterexample to C6 as stated: the 12-hour branch space-pads the hour to
width 2, so hour 13, minute 5 renders with a leading space and not as the
claimed "1:05 PM". -/
theorem format_time_12h_counterexample :
    SystemData.format_time ⟨13, 5, [], []⟩ ("digital-12h") ≠ "1:05 PM" ∧
    SystemData.format_time ⟨13, 5, [], []⟩ ("digital-12h") = " 1:05 PM" := by
  constructor <;> decide

/-- Claim C6 (amended): for every hour below 24 and minute below 60, any
selector other than digital-12h and analogue yields the zero-padded digits
HH:MM; the digital-12h selector yields the hour mapped through
0 mapsto 12, 12 mapsto 12, otherwise hour mod 12, space-padded to width 2,
with the zero-padded minute and an AM/PM suffix split at noon; the analogue
selector yields the empty string.  Hour 0, minute 5 render as 00:05 and
12:05 AM respectively. -/
theorem format_time_selectors (h m : Nat) (hh : h < 24) (hm : m < 60) :
    (∀ fmt : String, fmt ≠ "digital-12h" → fmt ≠ "analogue" →
      SystemData.format_time ⟨h, m, [], []⟩ fmt =
        toString (h / 10) ++ toString (h % 10) ++ ":" ++
          toString (m / 10) ++ toString (m % 10))
  ∧ SystemData.format_time ⟨h, m, [], []⟩ ("digital-12h") =
      (if (if h % 12 = 0 then 12 else h % 12) < 10 then " " else "") ++
        toString (if h % 12 = 0 then 12 else h % 12) ++ ":" ++
        toString (m / 10) ++ toString (m % 10) ++ " " ++
        (if h < 12 then "AM" else "PM")
  ∧ SystemData.format_time ⟨h, m, [], []⟩ ("analogue") = ""
  ∧ SystemData.format_time ⟨0, 5, [], []⟩ ("digital-24h") = "00:05"
  ∧ SystemData.format_time ⟨0, 5, [], []⟩ ("digital-12h") = "12:05 AM" := by
  have hpadm : fmt_pad2_zero m = toString (m / 10) ++ toString (m % 10) :=
    fmt_pad2_zero_digits m (by omega)
  refine ⟨?_, ?_, ?_, by decide, by decide⟩
  · intro fmt h1 h2
    show (if fmt = "digital-12h" then _ else _) = _
    rw [if_neg h1, if_neg h2]
    rw [fmt_pad2_zero_digits h (by omega), hpadm]
    simp [String.append_assoc]
  · show (if ("digital-12h" : String) = "digital-12h" then _ else _) = _
    rw [if_pos rfl]
    have hmap : (if h = 0 then ((12 : Nat), "AM")
        else if h < 12 then (h, "AM")
        else if h = 12 then (12, "PM")
        else (h - 12, "PM")) =
        ((if h % 12 = 0 then 12 else h % 12), if h < 12 then "AM" else "PM") := by
      split_ifs with a1 a2 a3 a4 a5 a6 a7 a8 <;>
        first
          | rfl
          | (exfalso; omega)
          | (congr 1 <;> omega)
    rw [hmap]
    dsimp only
    have hsp : fmt_pad2_space (if h % 12 = 0 then 12 else h % 12) =
        (if (if h % 12 = 0 then 12 else h % 12) < 10 then " " else "") ++
          toString (if h % 12 = 0 then 12 else h % 12) :=
      fmt_pad2_space_digits _ (by split <;> omega)
    rw [hsp, hpadm]
    simp [String.append_assoc]
  · show (if ("analogue" : String) = "digital-12h" then _
      else if ("analogue" : String) = "analogue" then _ else _) = _
    rw [if_neg (by decide), if_pos rfl]

/-- Witness for C6 at hour 7, minute 3 with the 24-hour selector. -/
theorem format_time_selectors_witness :
    SystemData.format_time ⟨7, 3, [], []⟩ ("digital-24h") =
      toString (7 / 10) ++ toString (7 % 10) ++ ":" ++
        toString (3 / 10) ++ toString (3 % 10) :=
  (format_time_selectors 7 3 (by decide) (by decide)).1 _ (by decide) (by decide)

/-! ## Claim C1 -/

lemma history_append_length (h : List ℚ) (v : ℚ) :
    (history_append h v).length = min (h.length + 1) HISTORY_SIZE := by
  unfold history_append
  dsimp only
  split <;> simp_all [HISTORY_SIZE] <;> omega

lemma history_append_all_eq (vs : List ℚ) :
    ∀ h : List ℚ, h.length ≤ HISTORY_SIZE →
      history_append_all h vs = (h ++ vs).drop (h.length + vs.length - HISTORY_SIZE) := by
  induction vs with
  | nil =>
    intro h hl
    rw [show h.length + [].length - HISTORY_SIZE = 0 by simp [HISTORY_SIZE] at hl ⊢; omega]
    simp [history_append_all]
  | cons v vs ih =>
    intro h hl
    show history_append_all (history_append h v) vs = _
    rw [ih (history_append h v) (by rw [history_append_length]; omega)]
    rw [history_append_length]
    by_cases hc : h.length + 1 ≤ HISTORY_SIZE
    · have happ : history_append h v = h ++ [v] := by
        unfold history_append
        rw [if_neg (by simp; omega)]
      rw [happ, List.append_assoc, List.singleton_append]
      congr 1
      · simp [HISTORY_SIZE] at hc ⊢
        omega
    · have hlen : h.length = HISTORY_SIZE := by omega
      have happ : history_append h v = (h ++ [v]).drop 1 := by
        unfold history_append
        rw [if_pos (by simp; omega)]
        congr 1
        simp
        omega
      rw [happ, ← List.drop_append_of_le_length (by simp), List.drop_drop,
        List.append_assoc, List.singleton_append]
      congr 1
      simp [HISTORY_SIZE] at hlen ⊢
      omega

/-- Claim C1: a history window never grows past the capacity HISTORY_SIZE
(= 60) under an append, appends insert at the tail and evict at the head, so
a run of 61 consecutive appends leaves exactly the last 60 inserted values in
insertion order with the earliest inserted value gone, and a tick updates the
disk and network windows of a SystemData record by exactly that append. -/
theorem history_window_capacity_fifo :
    (∀ (h : List ℚ) (v : ℚ), h.length ≤ HISTORY_SIZE →
      (history_append h v).length ≤ HISTORY_SIZE)
  ∧ (∀ vs : List ℚ, vs.length = 61 → history_append_all [] vs = vs.drop 1)
  ∧ (∀ (vs : List ℚ) (x : ℚ), vs.length = 61 → vs.Nodup → vs.head? = some x →
      x ∉ history_append_all [] vs)
  ∧ (∀ (d : SystemData) (dr nr : ℚ),
      (update_histories d dr nr).disk_history = history_append d.disk_history dr ∧
      (update_histories d dr nr).net_history = history_append d.net_history nr) := by
  have hdrop : ∀ vs : List ℚ, vs.length = 61 → history_append_all [] vs = vs.drop 1 := by
    intro vs hlen
    rw [history_append_all_eq vs [] (by simp [HISTORY_SIZE])]
    simp [HISTORY_SIZE, hlen]
  refine ⟨?_, hdrop, ?_, fun d dr nr => ⟨rfl, rfl⟩⟩
  · intro h v hl
    rw [history_append_length]
    omega
  · intro vs x hlen hnodup hhead
    rw [hdrop vs hlen]
    obtain ⟨t, rfl⟩ : ∃ t, vs = x :: t := by
      cases vs with
      | nil => simp at hhead
      | cons a t => simp at hhead; exact ⟨t, by rw [hhead]⟩
    simp only [List.drop_succ_cons, List.drop_zero]
    exact (List.nodup_cons.mp hnodup).1

/-- Witness for C1: the 61-append run at a concrete window of distinct
values. -/
theorem history_window_capacity_fifo_witness :
    history_append_all [] ((List.range 61).map (fun n => (n : ℚ))) =
      ((List.range 61).map (fun n => (n : ℚ))).drop 1 :=
  history_window_capacity_fifo.2.1 _ (by decide)

/-! ## Claims C2 and C7 -/

lemma image_render_hit (decode : String → Option Nat) (path : String) (q : Nat)
    (hpath : path ≠ "") :
    image_render decode path (some (path, q)) = ⟨some (path, q), 0, .bitmap path q⟩ := by
  unfold image_render
  rw [if_neg hpath]
  simp

lemma image_render_reload_success (decode : String → Option Nat) (path : String)
    (c : ImageCache) (pix : Nat) (hpath : path ≠ "")
    (hmiss : ∀ q : Nat, c ≠ some (path, q)) (hdp : decode path = some pix) :
    image_render decode path c = ⟨some (path, pix), 1, .bitmap path pix⟩ := by
  unfold image_render
  rw [if_neg hpath]
  rcases c with _ | ⟨cp, q⟩
  · simp [hdp]
  · have hne : cp ≠ path := fun he => hmiss q (by rw [he])
    simp [hne, hdp]

lemma image_render_reload_failure (decode : String → Option Nat) (path : String)
    (c : ImageCache) (hpath : path ≠ "")
    (hmiss : ∀ q : Nat, c ≠ some (path, q)) (hdp : decode path = none) :
    image_render decode path c = ⟨none, 1, .failureText path⟩ := by
  unfold image_render
  rw [if_neg hpath]
  rcases c with _ | ⟨cp, q⟩
  · simp [hdp]
  · have hne : cp ≠ path := fun he => hmiss q (by rw [he])
    simp [hne, hdp]

/-- Claim C2: cache validity is path equality with the configured path.  When
the decode of a non-empty configured path succeeds, a second render with the
same path performs no second decode and reuses the cached entry unchanged;
and whenever the slot holds no entry for the configured path, the render
performs exactly one reload attempt. -/
theorem image_cache_path_equality (decode : String → Option Nat) (path : String)
    (c : ImageCache) (pix : Nat) (hpath : path ≠ "") :
    (decode path = some pix →
      (image_render decode path (image_render decode path c).cache).loads = 0 ∧
      (image_render decode path (image_render decode path c).cache).cache =
        (image_render decode path c).cache ∧
      (image_render decode path (image_render decode path c).cache).output =
        (image_render decode path c).output)
  ∧ ((∀ q : Nat, c ≠ some (path, q)) → (image_render decode path c).loads = 1) := by
  constructor
  · intro hdp
    have hsecond : ∀ q : Nat,
        image_render decode path (some (path, q)) = ⟨some (path, q), 0, .bitmap path q⟩ :=
      fun q => image_render_hit decode path q hpath
    by_cases hhit : ∃ q : Nat, c = some (path, q)
    · obtain ⟨q, rfl⟩ := hhit
      rw [image_render_hit decode path q hpath]
      rw [hsecond q]
      exact ⟨rfl, rfl, rfl⟩
    · push_neg at hhit
      rw [image_render_reload_success decode path c pix hpath hhit hdp]
      rw [hsecond pix]
      exact ⟨rfl, rfl, rfl⟩
  · intro hmiss
    cases hdp : decode path with
    | some pix2 => rw [image_render_reload_success decode path c pix2 hpath hmiss hdp]
    | none => rw [image_render_reload_failure decode path c hpath hmiss hdp]

/-- Witness for C2 at a concrete decode oracle, path and cache state. -/
theorem image_cache_path_equality_witness :
    (image_render (fun _ => some 7) ("a.png")
      (image_render (fun _ => some 7) ("a.png") none).cache).loads = 0 ∧
    (image_render (fun _ => some 7) ("a.png") none).loads = 1 :=
  ⟨((image_cache_path_equality (fun _ => some 7) ("a.png") none 7 (by decide)).1 rfl).1,
   (image_cache_path_equality (fun _ => some 7) ("a.png") none 7 (by decide)).2
     (fun q h => by simp at h)⟩

/-- Claim C7: when a render of a non-empty path must reload (no entry for the
configured path) and the decode fails, the cache slot is left empty, the
render draws the failure text naming the attempted path instead of a bitmap,
and the next render with unchanged configuration makes a reload attempt
again. -/
theorem image_decode_failure_clears_cache (decode : String → Option Nat)
    (path : String) (c : ImageCache) (hpath : path ≠ "")
    (hmiss : ∀ q : Nat, c ≠ some (path, q)) (hdp : decode path = none) :
    (image_render decode path c).cache = none ∧
    (image_render decode path c).output = .failureText path ∧
    (image_render decode path (image_render decode path c).cache).loads = 1 := by
  rw [image_render_reload_failure decode path c hpath hmiss hdp]
  refine ⟨rfl, rfl, ?_⟩
  show (image_render decode path none).loads = 1
  rw [image_render_reload_failure decode path none hpath (fun q h => by simp at h) hdp]

/-- Witness for C7 at a concrete failing decode oracle. -/
theorem image_decode_failure_clears_cache_witness :
    (image_render (fun _ => none) ("missing.png") (some ("old.png", 3))).cache = none ∧
    (image_render (fun _ => none) ("missing.png") (some ("old.png", 3))).output =
      .failureText "missing.png" ∧
    (image_render (fun _ => none) ("missing.png")
      (image_render (fun _ => none) ("missing.png") (some ("old.png", 3))).cache).loads = 1 :=
  image_decode_failure_clears_cache (fun _ => none) ("missing.png") (some ("old.png", 3))
    (by decide) (fun q h => by simp at h) rfl

/-! ## Claim C8 -/

lemma round_half_even_intCast (n : ℤ) : round_half_even ((n : ℚ)) = n := by
  norm_num [round_half_even, Int.floor_intCast]

lemma fmt_dec1_of_mul_ten (q : ℚ) (n : ℤ) (h : q * 10 = (n : ℚ)) :
    fmt_dec1 q = toString (n / 10) ++ "." ++ toString ((n % 10).natAbs) := by
  unfold fmt_dec1
  rw [h, round_half_even_intCast]

lemma fmt_dec0_of_int (q : ℚ) (n : ℤ) (h : q = (n : ℚ)) :
    fmt_dec0 q = toString n := by
  unfold fmt_dec0
  rw [h, round_half_even_intCast]

/-- Counterexample to C8 as stated: the compact form is not the verbose form
with only the per-second suffix and the space removed.  At 2,000,000,000 the
verbose form is "2.0 GB/s"; removing its "/s" and its space would give
"2.0GB", but the code produces "2.0G". -/
theorem rate_compact_suffix_counterexample :
    format_rate 2000000000 = "2.0 GB/s" ∧ format_rate_compact 2000000000 ≠ "2.0GB" := by
  have hd : fmt_dec1 ((2000000000 : ℚ) / 1000000000) =
      toString ((20 : ℤ) / 10) ++ "." ++ toString (((20 : ℤ) % 10).natAbs) :=
    fmt_dec1_of_mul_ten _ 20 (by norm_num)
  constructor
  · rw [format_rate, if_pos (by norm_num), hd]
    decide
  · rw [format_rate_compact, if_pos (by norm_num), hd]
    decide

/-- Claim C8 (amended): the verbose formatter selects the unit letter at the
1,000 / 1,000,000 / 1,000,000,000 thresholds and prints the one-decimal
number, a space, the unit letter and "B/s" (whole number and bare "B/s"
below 1,000); the compact formatter prints the same number and unit letter
with no space and no trailing "B/s", keeping a bare "B" only in the
below-1,000 branch.  Concretely 1,500,000 formats as "1.5 MB/s", 950 as
"950 B/s" and compact 2,000,000,000 as "2.0G". -/
theorem rate_format_units :
    (∀ q : ℚ, format_rate q = (rate_pieces q).1 ++ " " ++ (rate_pieces q).2 ++ "B/s")
  ∧ (∀ q : ℚ, 1000 ≤ q →
      format_rate_compact q = (rate_pieces q).1 ++ (rate_pieces q).2)
  ∧ (∀ q : ℚ, q < 1000 → format_rate_compact q = (rate_pieces q).1 ++ "B")
  ∧ (∀ q : ℚ, q < 1000 → format_rate q = fmt_dec0 q ++ " B/s")
  ∧ format_rate 1500000 = "1.5 MB/s"
  ∧ format_rate 950 = "950 B/s"
  ∧ format_rate_compact 2000000000 = "2.0G" := by
  refine ⟨?_, ?_, ?_, ?_, ?_, ?_, ?_⟩
  · intro q
    unfold format_rate rate_pieces
    split_ifs <;> (simp only [String.append_assoc]; rfl)
  · intro q hq
    unfold format_rate_compact rate_pieces
    split_ifs <;> first | rfl | linarith
  · intro q hq
    unfold format_rate_compact rate_pieces
    rw [if_neg (by linarith), if_neg (by linarith), if_neg (by linarith),
      if_neg (by linarith), if_neg (by linarith), if_neg (by linarith)]
  · intro q hq
    rw [format_rate, if_neg (by linarith), if_neg (by linarith), if_neg (by linarith)]
  · rw [format_rate, if_neg (by norm_num), if_pos (by norm_num),
      fmt_dec1_of_mul_ten _ 15 (by norm_num)]
    decide
  · rw [format_rate, if_neg (by norm_num), if_neg (by norm_num), if_neg (by norm_num),
      fmt_dec0_of_int _ 950 (by norm_num)]
    decide
  · rw [format_rate_compact, if_pos (by norm_num),
      fmt_dec1_of_mul_ten _ 20 (by norm_num)]
    decide

/-- Witness for C8 in the below-threshold branch at 950 bytes per second. -/
theorem rate_format_units_witness :
    format_rate 950 = fmt_dec0 950 ++ " B/s" :=
  rate_format_units.2.2.2.1 950 (by norm_num)

/-! ## Claim C3 -/

/-- The snap-to-multiplier if-chain of compute_graph_scale
(data.rs lines 234-242), named so the scaling can be reasoned about. -/
def snap_multiplier (normalized : ℚ) : ℚ :=
  if normalized ≤ 1 then 1
  else if normalized ≤ 2 then 2
  else if normalized ≤ 5 then 5
  else 10

lemma scale_of_max_eq (m : ℚ) :
    scale_of_max m = if m ≤ MIN_SCALE then MIN_SCALE
      else max ((10 : ℚ) ^ Int.log 10 m * snap_multiplier (m / (10 : ℚ) ^ Int.log 10 m))
        MIN_SCALE := rfl

lemma snap_multiplier_one_le (x : ℚ) : 1 ≤ snap_multiplier x := by
  unfold snap_multiplier
  split_ifs <;> norm_num

lemma snap_multiplier_le_ten (x : ℚ) : snap_multiplier x ≤ 10 := by
  unfold snap_multiplier
  split_ifs <;> norm_num

lemma snap_multiplier_ge (x : ℚ) (hx : x ≤ 10) : x ≤ snap_multiplier x := by
  unfold snap_multiplier
  split_ifs <;> linarith

lemma snap_multiplier_minimal (x c : ℚ) (hc : c ∈ ([1, 2, 5, 10] : List ℚ))
    (hxc : x ≤ c) : snap_multiplier x ≤ c := by
  unfold snap_multiplier
  fin_cases hc <;> split_ifs <;> linarith

lemma snap_multiplier_mono (x y : ℚ) (hxy : x ≤ y) :
    snap_multiplier x ≤ snap_multiplier y := by
  unfold snap_multiplier
  split_ifs <;> linarith

lemma scale_of_max_min_le (m : ℚ) : MIN_SCALE ≤ scale_of_max m := by
  rw [scale_of_max_eq]
  split
  · exact le_refl _
  · exact le_max_right _ _

lemma mag_le_self (m : ℚ) (hpos : 0 < m) : (10 : ℚ) ^ Int.log 10 m ≤ m := by
  have h := Int.zpow_log_le_self (b := 10) (by norm_num) hpos
  simpa using h

lemma lt_mag_succ (m : ℚ) : m < (10 : ℚ) ^ (Int.log 10 m + 1) := by
  have h := Int.lt_zpow_succ_log_self (b := 10) (by norm_num) m
  simpa using h

lemma scale_of_max_above (m : ℚ) (hm : MIN_SCALE < m) :
    scale_of_max m = (10 : ℚ) ^ Int.log 10 m * snap_multiplier (m / (10 : ℚ) ^ Int.log 10 m)
    ∧ m ≤ (10 : ℚ) ^ Int.log 10 m * snap_multiplier (m / (10 : ℚ) ^ Int.log 10 m)
    ∧ m / (10 : ℚ) ^ Int.log 10 m < 10 := by
  have hpos : (0 : ℚ) < m := lt_trans (by norm_num [MIN_SCALE]) hm
  have hmagpos : (0 : ℚ) < (10 : ℚ) ^ Int.log 10 m := zpow_pos (by norm_num) _
  have hlt : m < (10 : ℚ) ^ Int.log 10 m * 10 := by
    have := lt_mag_succ m
    rwa [zpow_add_one₀ (by norm_num : (10 : ℚ) ≠ 0)] at this
  have hn10 : m / (10 : ℚ) ^ Int.log 10 m < 10 :=
    (div_lt_iff₀ hmagpos).mpr (by linarith)
  have hle : m ≤ (10 : ℚ) ^ Int.log 10 m * snap_multiplier (m / (10 : ℚ) ^ Int.log 10 m) := by
    have h1 : m / (10 : ℚ) ^ Int.log 10 m ≤
        snap_multiplier (m / (10 : ℚ) ^ Int.log 10 m) :=
      snap_multiplier_ge _ (le_of_lt hn10)
    have h2 := (div_le_iff₀ hmagpos).mp h1
    linarith [h2]
  refine ⟨?_, hle, hn10⟩
  rw [scale_of_max_eq, if_neg (by linarith)]
  exact max_eq_left (le_trans (le_of_lt hm) hle)

lemma scale_of_max_mono (m1 m2 : ℚ) (h : m1 ≤ m2) :
    scale_of_max m1 ≤ scale_of_max m2 := by
  by_cases h1 : m1 ≤ MIN_SCALE
  · rw [show scale_of_max m1 = MIN_SCALE from by rw [scale_of_max_eq, if_pos h1]]
    exact scale_of_max_min_le m2
  · push_neg at h1
    have h2 : MIN_SCALE < m2 := lt_of_lt_of_le h1 h
    have p1 : (0 : ℚ) < m1 := lt_trans (by norm_num [MIN_SCALE]) h1
    have hmag1 : (0 : ℚ) < (10 : ℚ) ^ Int.log 10 m1 := zpow_pos (by norm_num) _
    have hmag2 : (0 : ℚ) < (10 : ℚ) ^ Int.log 10 m2 := zpow_pos (by norm_num) _
    obtain ⟨e1, le1, _⟩ := scale_of_max_above m1 h1
    obtain ⟨e2, le2, _⟩ := scale_of_max_above m2 h2
    rw [e1, e2]
    have hk : Int.log 10 m1 ≤ Int.log 10 m2 := Int.log_mono_right p1 h
    rcases lt_or_eq_of_le hk with hklt | hkeq
    · have s1 : (10 : ℚ) ^ Int.log 10 m1 * snap_multiplier (m1 / (10 : ℚ) ^ Int.log 10 m1) ≤
          (10 : ℚ) ^ Int.log 10 m1 * 10 :=
        mul_le_mul_of_nonneg_left (snap_multiplier_le_ten _) (le_of_lt hmag1)
      have s2 : (10 : ℚ) ^ Int.log 10 m1 * 10 = (10 : ℚ) ^ (Int.log 10 m1 + 1) :=
        (zpow_add_one₀ (by norm_num : (10 : ℚ) ≠ 0) _).symm
      have s3 : (10 : ℚ) ^ (Int.log 10 m1 + 1) ≤ (10 : ℚ) ^ Int.log 10 m2 :=
        zpow_le_zpow_right₀ (by norm_num) (by omega)
      have s4 : (10 : ℚ) ^ Int.log 10 m2 ≤
          (10 : ℚ) ^ Int.log 10 m2 * snap_multiplier (m2 / (10 : ℚ) ^ Int.log 10 m2) :=
        le_mul_of_one_le_right (le_of_lt hmag2) (snap_multiplier_one_le _)
      linarith
    · rw [hkeq]
      have hdiv : m1 / (10 : ℚ) ^ Int.log 10 m2 ≤ m2 / (10 : ℚ) ^ Int.log 10 m2 := by
        gcongr
      exact mul_le_mul_of_nonneg_left (snap_multiplier_mono _ _ hdiv) (le_of_lt hmag2)

/-- Claim C3: compute_graph_scale returns the 1,000,000 floor when the
maximum sample is at or below it; above the floor it returns
magnitude * multiplier where the magnitude is the power of ten with
magnitude ≤ max < 10 * magnitude and the multiplier is the smallest of
1, 2, 5, 10 at or above max / magnitude; the result is always at least
1,000,000, monotone non-decreasing in the maximum sample, and equals
5,000,000 when the maximum sample is 3,200,000. -/
theorem compute_graph_scale_spec :
    (∀ h : List ℚ, 1000000 ≤ compute_graph_scale h)
  ∧ (∀ h : List ℚ, max_sample h ≤ 1000000 → compute_graph_scale h = 1000000)
  ∧ (∀ h : List ℚ, 1000000 < max_sample h →
      ∃ k : ℤ, (10 : ℚ) ^ k ≤ max_sample h ∧ max_sample h < (10 : ℚ) ^ (k + 1) ∧
        max_sample h / (10 : ℚ) ^ k ≤ snap_multiplier (max_sample h / (10 : ℚ) ^ k) ∧
        (∀ c ∈ ([1, 2, 5, 10] : List ℚ),
          max_sample h / (10 : ℚ) ^ k ≤ c →
            snap_multiplier (max_sample h / (10 : ℚ) ^ k) ≤ c) ∧
        compute_graph_scale h =
          (10 : ℚ) ^ k * snap_multiplier (max_sample h / (10 : ℚ) ^ k))
  ∧ (∀ h1 h2 : List ℚ, max_sample h1 ≤ max_sample h2 →
      compute_graph_scale h1 ≤ compute_graph_scale h2)
  ∧ compute_graph_scale [3200000] = 5000000 := by
  have hmin : MIN_SCALE = 1000000 := rfl
  refine ⟨?_, ?_, ?_, ?_, ?_⟩
  · intro h
    have := scale_of_max_min_le (max_sample h)
    rwa [hmin] at this
  · intro h hle
    show scale_of_max (max_sample h) = 1000000
    rw [scale_of_max_eq, if_pos (by rw [hmin]; exact hle)]
    exact hmin
  · intro h hgt
    have hgt2 : MIN_SCALE < max_sample h := by rw [hmin]; exact hgt
    have hpos : (0 : ℚ) < max_sample h := lt_trans (by norm_num) hgt
    obtain ⟨e, _, hn10⟩ := scale_of_max_above (max_sample h) hgt2
    refine ⟨Int.log 10 (max_sample h), mag_le_self _ hpos, lt_mag_succ _,
      snap_multiplier_ge _ (le_of_lt hn10),
      fun c hc hxc => snap_multiplier_minimal _ c hc hxc, e⟩
  · intro h1 h2 hle
    exact scale_of_max_mono _ _ hle
  · have hmax : max_sample [3200000] = 3200000 := by
      show max 0 3200000 = 3200000
      norm_num
    show scale_of_max (max_sample [3200000]) = 5000000
    rw [hmax]
    have hlog : Int.log 10 (3200000 : ℚ) = 6 := by
      have hcast : (3200000 : ℚ) = ((3200000 : ℕ) : ℚ) := by norm_num
      rw [hcast, Int.log_natCast,
        show Nat.log 10 3200000 = 6 from
          Nat.log_eq_of_pow_le_of_lt_pow (by norm_num) (by norm_num)]
      rfl
    rw [scale_of_max_eq, if_neg (by norm_num [MIN_SCALE]), hlog]
    rw [show (10 : ℚ) ^ (6 : ℤ) = 1000000 by norm_num]
    rw [show (3200000 : ℚ) / 1000000 = 16 / 5 by norm_num]
    rw [show snap_multiplier (16 / 5) = 5 by
      unfold snap_multiplier
      rw [if_neg (by norm_num), if_neg (by norm_num), if_pos (by norm_num)]]
    rw [show (1000000 : ℚ) * 5 = 5000000 by norm_num]
    exact max_eq_left (by norm_num [MIN_SCALE])

/-- Witness for C3: monotonicity applied at two concrete histories. -/
theorem compute_graph_scale_spec_witness :
    compute_graph_scale [500] ≤ compute_graph_scale [3200000] :=
  compute_graph_scale_spec.2.2.2.1 [500] [3200000] (by
    show max 0 500 ≤ max 0 3200000
    norm_num)

/-! ## Claim C4 -/

/-- Counterexample to C4 as stated: days_to_ymd does not implement the exact
civil-from-days conversion on every non-negative input, because the source
casts the year to u16.  At days = 24,000,000 the civil year is 67,679, which
wraps to 2,143. -/
theorem days_to_ymd_wrap_counterexample :
    days_to_ymd 24000000 ≠
      ((civil_from_days 24000000).1.toNat, (civil_from_days 24000000).2.1,
        (civil_from_days 24000000).2.2) ∧
    (civil_from_days 24000000).1 = 67679 ∧
    (days_to_ymd 24000000).1 = 2143 := by
  refine ⟨by decide, by decide, by decide⟩

set_option maxHeartbeats 1000000 in
/-- Claim C4 (amended): for every non-negative days-since-epoch input whose
civil year fits the u16 return field (below 65,536), days_to_ymd agrees
exactly with the spec's civil-from-days conversion (the +719468 shift,
146097-day eras with the negative-input correction, the year-of-era
polynomial, the March-based month offset and the January/February year
bump); day 0 decodes to (1970, 1, 1) and the (days + 4) mod 7 day-of-week
with 0 = Sunday makes day 0 a Thursday (4), with 2024-01-01 (day 19723) a
Monday (1). -/
theorem days_to_ymd_civil (days : Int) (h0 : 0 ≤ days)
    (hy : (civil_from_days days).1 < 65536) :
    (days_to_ymd days =
      ((civil_from_days days).1.toNat, (civil_from_days days).2.1,
        (civil_from_days days).2.2))
  ∧ days_to_ymd 0 = (1970, 1, 1)
  ∧ day_of_week 0 = 4
  ∧ days_to_ymd 19723 = (2024, 1, 1)
  ∧ day_of_week 19723 = 1 := by
  refine ⟨?_, by decide, by decide, by decide, by decide⟩
  have hz : 0 ≤ days + 719468 := by omega
  have htd : (days + 719468).tdiv 146097 = (days + 719468) / 146097 :=
    Int.tdiv_eq_ediv hz (by norm_num)
  simp only [days_to_ymd, civil_from_days] at hy ⊢
  rw [if_pos hz] at hy ⊢
  rw [htd] at hy ⊢
  have hE0 : 0 ≤ (days + 719468) / 146097 := by omega
  generalize hE : (days + 719468) / 146097 = E at hE0 hy ⊢
  have hDlt : (days + 719468 - E * 146097).toNat < 146097 := by omega
  generalize hD : (days + 719468 - E * 146097).toNat = D at hDlt hy ⊢
  clear hE hz htd h0
  have hdoy : (D - (365 * ((D - D / 1460 + D / 36524 - D / 146096) / 365) + ((D - D / 1460 + D / 36524 - D / 146096) / 365) / 4 - ((D - D / 1460 + D / 36524 - D / 146096) / 365) / 100)) ≤ 464 := by omega
  generalize hY : (D - (365 * ((D - D / 1460 + D / 36524 - D / 146096) / 365) + ((D - D / 1460 + D / 36524 - D / 146096) / 365) / 4 - ((D - D / 1460 + D / 36524 - D / 146096) / 365) / 100)) = Y at hdoy hy ⊢
  simp only [Prod.mk.injEq]
  refine ⟨?_, ?_, ?_⟩
  · split_ifs at hy ⊢ <;> omega
  · clear hy
    split_ifs <;> omega
  · clear hy
    omega

/-- Witness for C4 at day 19723. -/
theorem days_to_ymd_civil_witness :
    days_to_ymd 19723 =
      ((civil_from_days 19723).1.toNat, (civil_from_days 19723).2.1,
        (civil_from_days 19723).2.2) :=
  (days_to_ymd_civil 19723 (by decide) (by decide)).1
